import Mathlib

/-!
# Verification of the lunchmoney-fintoc-sync core

A shallow embedding of the synchronization pipeline of the
`lunchmoney-fintoc-sync` repository (Rust), together with theorems checking
its natural-language specification.

Modelling conventions:

* Rust `f64` monetary values (`lunchmoney::Amount`) are modelled as exact
  rationals (`ℚ`): every arithmetic operation the code performs on amounts
  (casting a machine integer, dividing by 100, subtraction of balances) is
  embedded as the corresponding exact operation.
* `chrono::DateTime<Utc>` is modelled as an opaque timestamp wrapper; the
  code never computes with dates, it only copies them.
* Strings are Lean `String`s; Rust's `to_uppercase`/`to_lowercase` are
  modelled by the ASCII case maps `strUpper`/`strLower` below (all
  currency codes and description markers involved are ASCII).
* HTTP traffic is modelled by passing the already-decoded response data (or
  an abstract page oracle, for pagination) to the pure part of each
  function; the transport/status/parse checks the code performs become the
  explicit error branches of those pure functions.
-/

namespace FintocSync

deriving instance DecidableEq for Except

/-- Model of `chrono::DateTime<Utc>`: opaque timestamp. The pipeline only copies
dates around, so only equality matters. -/
structure DateTime where
  ts : Int
deriving DecidableEq

/-- Model of `lunchmoney::Amount` (`src/types/lunchmoney.rs`): a monetary value,
`pub struct Amount(pub f64)`, modelled as an exact rational. -/
structure Amount where
  val : ℚ
deriving DecidableEq

/-- Model of `fintoc::Institution` (`src/types/fintoc.rs`). -/
structure Institution where
  id : String
  name : String
  country : String
deriving DecidableEq

/-- Model of `fintoc::Balance` (`src/types/fintoc.rs`): `i128` minor-unit balances. -/
structure Balance where
  available : Int
  current : Int
  limit : Int
deriving DecidableEq

/-- Model of `fintoc::Account` (`src/types/fintoc.rs`). -/
structure Account where
  id : String
  object : String
  name : String
  official_name : String
  number : Option String
  holder_id : String
  holder_name : String
  account_type : String
  currency : String
  balance : Balance
  refreshed_at : Option DateTime
deriving DecidableEq

/-- Model of `fintoc::TransferAccount` (`src/types/fintoc.rs`). -/
structure TransferAccount where
  holder_id : String
  holder_name : String
  number : Option String
  institution : Option Institution
deriving DecidableEq

/-- Model of `fintoc::MovementType` (`src/types/fintoc.rs`). -/
inductive MovementType where
  | Transfer
  | Check
  | Other
deriving DecidableEq

/-- Model of `fintoc::Movement` (`src/types/fintoc.rs`): the provider-native
movement record. `amount` is an `i32` of signed minor units, modelled as
`Int` (the code only compares it with 0 and scales it). -/
structure Movement where
  id : String
  object : String
  amount : Int
  post_date : DateTime
  description : String
  transaction_date : Option DateTime
  currency : String
  reference_id : Option String
  movement_type : MovementType
  pending : Bool
  recipient_account : Option TransferAccount
  sender_account : Option TransferAccount
  comment : Option String
deriving DecidableEq

/-- Model of `lunchmoney::TransactionStatus` (`src/types/lunchmoney.rs`). -/
inductive TransactionStatus where
  | Cleared
  | Uncleared
deriving DecidableEq

/-- Model of `lunchmoney::Tag` (`src/types/lunchmoney.rs`). -/
structure Tag where
  id : Nat
  name : String
  description : String
deriving DecidableEq

/-- Model of `lunchmoney::Transaction` (`src/types/lunchmoney.rs`). -/
structure Transaction where
  id : Option Nat
  date : DateTime
  payee : Option String
  amount : Amount
  currency : Option String
  category_id : Option Nat
  asset_id : Option Nat
  status : TransactionStatus
  parent_id : Option Nat
  is_group : Option Bool
  group_id : Option Nat
  tags : Option (List Tag)
  external_id : Option String
  notes : Option String
  original_name : Option String
  is_pending : Option Bool
deriving DecidableEq

/-- Model of `impl Default for Transaction` (`src/types/lunchmoney.rs`): the
`..Default::default()` base used by the normalizer. `UNIX_EPOCH.into()`
becomes timestamp 0. -/
def Transaction.default : Transaction where
  id := none
  date := ⟨0⟩
  payee := none
  amount := ⟨0⟩
  currency := none
  category_id := none
  asset_id := none
  status := TransactionStatus.Uncleared
  parent_id := none
  is_group := none
  group_id := none
  tags := none
  external_id := none
  notes := none
  original_name := none
  is_pending := none

/-- Model of `lunchmoney::Asset` (`src/types/lunchmoney.rs`). -/
structure Asset where
  id : Option Nat
  type_ : Option String
  subtype : Option String
  name : Option String
  display_name : Option String
  balance : Amount
  balance_as_of : Option DateTime
  closed_on : Option String
  currency : String
  institution_name : Option String
  exclude_transactions : Option Bool
  created_at : Option DateTime
deriving DecidableEq

/-- Model of `impl Default for Asset` (`src/types/lunchmoney.rs`). -/
def Asset.default : Asset where
  id := none
  type_ := none
  subtype := none
  name := none
  display_name := none
  balance := ⟨0⟩
  balance_as_of := none
  closed_on := none
  currency := "usd"
  institution_name := none
  exclude_transactions := none
  created_at := none

/-- Model of `main::AccountType` (`src/main.rs`). -/
inductive AccountType where
  | Checking
  | Savings
  | Credit
deriving DecidableEq

/-! ## Description cleaning (`Movement::clean_description`)

The Rust code applies the regex
`^(?i)(COMPRA INTERNACIONAL|COMPRA NACIONAL|PAGO RECURRENTE|COMPRA INTER.)\s`
and replaces the first match with the empty string.  The regex is embedded
structurally: an anchored, ordered alternation of three ASCII literals plus
one literal whose final `.` is the regex any-character-but-newline
wildcard, each followed by one whitespace character; a match removes the
matched characters.  `(?i)` is modelled as ASCII case-insensitivity and
`\s` by the ASCII whitespace characters (the inputs involved are ASCII). -/

/-- Rust `str::to_uppercase`, modelled for ASCII (all currency codes the
code compares against are ASCII). Implemented on the character list so
that it is fully kernel-reducible. -/
def strUpper (s : String) : String :=
  String.mk (s.data.map Char.toUpper)

/-- Rust `str::to_lowercase`, modelled for ASCII. -/
def strLower (s : String) : String :=
  String.mk (s.data.map Char.toLower)

/-- The character class `\s`, restricted to ASCII. -/
def isWsChar (c : Char) : Bool :=
  c = ' ' || c = '\t' || c = '\n' || c = '\r' || c = '\x0b' || c = '\x0c'

/-- Case-insensitive anchored match of a literal pattern (given in
lowercase) against the front of the input; returns the rest of the input
on success. -/
def matchLit : List Char → List Char → Option (List Char)
  | [], rest => some rest
  | _ :: _, [] => none
  | p :: ps, c :: cs => if c.toLower = p then matchLit ps cs else none

/-- Consume the `\s` at the end of the regex alternatives. -/
def matchWs : List Char → Option (List Char)
  | [] => none
  | c :: cs => if isWsChar c then some cs else none

/-- One plain alternative of the regex: literal then `\s`. -/
def matchAlt (p : List Char) (input : List Char) : Option (List Char) :=
  (matchLit p input).bind matchWs

/-- Tail of the `COMPRA INTER.` alternative: the `.` wildcard (any
character except newline) followed by `\s`. -/
def matchDotTail : List Char → Option (List Char)
  | [] => none
  | c :: cs => if c = '\n' then none else matchWs cs

/-- The `COMPRA INTER.` alternative: literal, then the `.` wildcard, then
`\s`. -/
def matchAltDot (input : List Char) : Option (List Char) :=
  (matchLit "compra inter".data input).bind matchDotTail

/-- The anchored regex replace on the character list: ordered alternation,
first successful alternative wins, otherwise the input is unchanged. -/
def cleanChars (input : List Char) : List Char :=
  match matchAlt "compra internacional".data input with
  | some rest => rest
  | none =>
    match matchAlt "compra nacional".data input with
    | some rest => rest
    | none =>
      match matchAlt "pago recurrente".data input with
      | some rest => rest
      | none =>
        match matchAltDot input with
        | some rest => rest
        | none => input

/-- Model of `Movement::clean_description` (`src/types/fintoc.rs` lines 76–84). -/
def Movement.clean_description (m : Movement) : String :=
  String.mk (cleanChars m.description.data)

/-! ## Currency scaling and normalization
(`Movement::to_lunchmoney_transaction`, `src/types/fintoc.rs` 86–142) -/

/-- The currency-scaling match at the head of
`Movement::to_lunchmoney_transaction` (`src/types/fintoc.rs` 90–100):
CLP passes through unscaled, USD and EUR are divided by 100, anything
else is a "not supported" error. -/
def scaleAmount (currency : String) (amount : Int) : Except String Amount :=
  if strUpper currency = "CLP" then Except.ok ⟨(amount : ℚ)⟩
  else if strUpper currency = "USD" then Except.ok ⟨(amount : ℚ) / 100⟩
  else if strUpper currency = "EUR" then Except.ok ⟨(amount : ℚ) / 100⟩
  else Except.error ("Currency " ++ strUpper currency ++ " is not supported.")

/-- How a counterparty is rendered as a payee
(`src/types/fintoc.rs` 112–120): holder name, with the institution name
in parentheses when present. -/
def payeeFromAccount (account : TransferAccount) : String :=
  match account.institution with
  | some institution => account.holder_name ++ " (" ++ institution.name ++ ")"
  | none => account.holder_name

/-- The payee derivation of `Movement::to_lunchmoney_transaction`
(`src/types/fintoc.rs` 103–127): for a transfer, the sender when the
amount is positive, the recipient otherwise, falling back to the cleaned
description; for everything else the cleaned description. -/
def derivePayee (m : Movement) : String :=
  match m.movement_type with
  | MovementType.Transfer =>
    match (if m.amount > 0 then m.sender_account else m.recipient_account) with
    | some account => payeeFromAccount account
    | none => m.clean_description
  | _ => m.clean_description

/-- Model of `Movement::to_lunchmoney_transaction` (`src/types/fintoc.rs` 86–142). -/
def Movement.to_lunchmoney_transaction (m : Movement) (asset_id : Nat) :
    Except String Transaction :=
  match scaleAmount m.currency m.amount with
  | Except.error e => Except.error e
  | Except.ok amount =>
    Except.ok { Transaction.default with
      date := m.transaction_date.getD m.post_date
      payee := some (derivePayee m)
      amount := amount
      currency := some (strLower m.currency)
      asset_id := some asset_id
      notes := m.comment
      external_id := some m.id
      status := TransactionStatus.Uncleared
      original_name := some m.description
      is_pending := some m.pending }

/-! ## Specification-side definitions and concrete fixtures -/

/-- The set of description cleanings the code can perform, as the amended
claim states them: remove, ASCII-case-insensitively, a leading
`COMPRA INTERNACIONAL`, `COMPRA NACIONAL` or `PAGO RECURRENTE`, or a
leading `COMPRA INTER` followed by any single non-newline character, in
each case together with one following whitespace character. -/
def StripSpec (s r : List Char) : Prop :=
  (∃ l w, s = l ++ w :: r ∧ l.map Char.toLower = "compra internacional".data ∧
    isWsChar w = true) ∨
  (∃ l w, s = l ++ w :: r ∧ l.map Char.toLower = "compra nacional".data ∧
    isWsChar w = true) ∨
  (∃ l w, s = l ++ w :: r ∧ l.map Char.toLower = "pago recurrente".data ∧
    isWsChar w = true) ∨
  (∃ l c w, s = l ++ c :: w :: r ∧ l.map Char.toLower = "compra inter".data ∧
    c ≠ '\n' ∧ isWsChar w = true)

/-- The claim's reading of the marker set: the four listed strings taken
literally, matched ASCII-case-insensitively at the start of the
description. -/
def startsWithClaimMarker (s : String) : Bool :=
  ["COMPRA INTERNACIONAL", "COMPRA NACIONAL", "PAGO RECURRENTE",
    "COMPRA INTER."].any
    (fun p => (matchLit (p.data.map Char.toLower) s.data).isSome)

/-- Helper projection for witnesses: the transaction produced by a
successful normalization. -/
def okTransaction (m : Movement) (aid : Nat) : Transaction :=
  match m.to_lunchmoney_transaction aid with
  | Except.ok t => t
  | Except.error _ => Transaction.default

/-- A concrete non-transfer movement whose description begins with a
string that is not one of the four literal markers but is matched by the
regex wildcard. -/
def mvCompraInterX : Movement where
  id := "mov_1"
  object := "movement"
  amount := -5000
  post_date := ⟨100⟩
  description := "COMPRA INTERX Y"
  transaction_date := none
  currency := "CLP"
  reference_id := none
  movement_type := MovementType.Other
  pending := false
  recipient_account := none
  sender_account := none
  comment := none

/-- A concrete non-transfer movement carrying the claim's example
description. -/
def mvCompraNacional : Movement where
  id := "mov_2"
  object := "movement"
  amount := -12345
  post_date := ⟨200⟩
  description := "COMPRA NACIONAL SUPERMARKET X"
  transaction_date := none
  currency := "CLP"
  reference_id := none
  movement_type := MovementType.Other
  pending := false
  recipient_account := none
  sender_account := none
  comment := none

/-- A concrete institution for the transfer fixtures. -/
def instBanco : Institution where
  id := "inst_1"
  name := "BancoChile"
  country := "CL"

/-- A concrete counterparty with an institution. -/
def acctSender : TransferAccount where
  holder_id := "h_1"
  holder_name := "Alice"
  number := none
  institution := some instBanco

/-- A concrete counterparty without an institution. -/
def acctRecipient : TransferAccount where
  holder_id := "h_2"
  holder_name := "Bob"
  number := some "001122"
  institution := none

/-- A concrete incoming (positive) USD transfer with a sender that has an
institution, a transaction date and a comment. -/
def mvTransferIn : Movement where
  id := "mov_3"
  object := "movement"
  amount := 150000
  post_date := ⟨300⟩
  description := "TRANSFERENCIA DE ALICE"
  transaction_date := some ⟨299⟩
  currency := "usd"
  reference_id := none
  movement_type := MovementType.Transfer
  pending := true
  recipient_account := none
  sender_account := some acctSender
  comment := some "rent"

/-- A concrete outgoing (negative) CLP transfer with a recipient that has
no institution. -/
def mvTransferOut : Movement where
  id := "mov_4"
  object := "movement"
  amount := -70000
  post_date := ⟨400⟩
  description := "TRANSFERENCIA A BOB"
  transaction_date := none
  currency := "CLP"
  reference_id := none
  movement_type := MovementType.Transfer
  pending := false
  recipient_account := some acctRecipient
  sender_account := none
  comment := none

/-- A concrete movement in a currency the code does not support. -/
def mvUnsupported : Movement where
  id := "mov_5"
  object := "movement"
  amount := 999
  post_date := ⟨500⟩
  description := "FOREIGN PURCHASE"
  transaction_date := none
  currency := "GBP"
  reference_id := none
  movement_type := MovementType.Other
  pending := false
  recipient_account := none
  sender_account := none
  comment := none

/-! ## Provider fetcher (`src/fintoc.rs`) -/

/-- One page of the movements endpoint, as the code sees it after the
HTTP round trip: a 200 response whose JSON body is an array of movement
records, a non-success status, or a 200 response whose body is not an
array.  Per-record JSON deserialization is modelled away: records arrive
already structured. -/
inductive PageResponse where
  | ok (records : List Movement)
  | errStatus (code : Nat)
  | notArray
deriving DecidableEq

/-- The pagination loop of `fetch_fintoc_movements` (`src/fintoc.rs`
18–79): request page `page`; a non-success status or a non-array body
aborts the whole fetch with an error (dropping everything accumulated);
otherwise append the page's records, stop after an empty page, else
continue with `page + 1`.  `fuel` bounds the number of iterations so the
function is total (`none` = fuel ran out, which the claims always avoid);
alongside the movements, the number of requests issued is returned. -/
def fetchLoop (pages : Nat → PageResponse) :
    Nat → Nat → List Movement → Nat → Option (Except String (List Movement × Nat))
  | 0, _, _, _ => none
  | fuel + 1, page, acc, reqs =>
    match pages page with
    | PageResponse.errStatus code =>
      some (Except.error ("Failed to get Fintoc transactions, code " ++ toString code))
    | PageResponse.notArray => some (Except.error "Data is not an array")
    | PageResponse.ok records =>
      if records.isEmpty then some (Except.ok (acc ++ records, reqs + 1))
      else fetchLoop pages fuel (page + 1) (acc ++ records) (reqs + 1)

/-- Model of `fetch_fintoc_movements` (`src/fintoc.rs` 18–79): start at page 1
with an empty accumulator. -/
def fetch_fintoc_movements (pages : Nat → PageResponse) (fuel : Nat) :
    Option (Except String (List Movement × Nat)) :=
  fetchLoop pages fuel 1 [] 0

/-- The raw balance computed by `fetch_fintoc_balance` before currency
scaling (`src/fintoc.rs` 112–119): the provider's `current` balance for
checking and savings accounts, `limit - available` for credit accounts. -/
def rawFintocBalance (account_type : AccountType) (account : Account) : Amount :=
  match account_type with
  | AccountType.Checking => ⟨(account.balance.current : ℚ)⟩
  | AccountType.Savings => ⟨(account.balance.current : ℚ)⟩
  | AccountType.Credit =>
    ⟨((account.balance.limit - account.balance.available : Int) : ℚ)⟩

/-- The pure tail of `fetch_fintoc_balance` (`src/fintoc.rs` 112–132):
given the parsed account record, compute the raw balance by account type
and then apply the same currency scaling as normalization (CLP unscaled,
USD/EUR divided by 100, anything else a hard error). -/
def fetch_fintoc_balance (account_type : AccountType) (account : Account) :
    Except String Amount :=
  if strUpper account.currency = "CLP" then
    Except.ok (rawFintocBalance account_type account)
  else if strUpper account.currency = "USD" then
    Except.ok ⟨(rawFintocBalance account_type account).val / 100⟩
  else if strUpper account.currency = "EUR" then
    Except.ok ⟨(rawFintocBalance account_type account).val / 100⟩
  else
    Except.error ("Currency " ++ strUpper account.currency ++ " is not supported.")

/-! ## Ledger client (`src/lunchmoney.rs`) -/

/-- Model of `lunchmoney::InsertTransactionResponse` (`src/types/lunchmoney.rs`):
the `{ids?, error?}` body of a 200 insert response. -/
structure InsertTransactionResponse where
  ids : Option (List Nat)
  error : Option (List String)
deriving DecidableEq

/-- Rust `str::contains(pattern)`: some contiguous run of `hay` equals
`pattern`. -/
def strContains (hay pattern : String) : Bool :=
  go hay.data
where
  go : List Char → Bool
    | [] => pattern.data.isEmpty
    | c :: cs => pattern.data.isPrefixOf (c :: cs) || go cs

/-- The error-scanning loop of `insert_single_transaction`
(`src/lunchmoney.rs` 85–91 and 98–104): return (`Ok(None)`) as soon as an
error message contains "already exists"; other messages are only logged
and the loop continues. -/
def anyAlreadyExists : List String → Bool
  | [] => false
  | e :: rest => if strContains e "already exists" then true else anyAlreadyExists rest

/-- The response interpretation of `insert_single_transaction`
(`src/lunchmoney.rs` 76–111) after a 200 status: the four-variant match
on `{ids?, error?}`, resolving to the optional newly inserted id (`none`
means "no new id assigned", i.e. a duplicate or an empty response).
Logging is a side effect only; no reported error message makes the call
fail. -/
def insert_single_transaction (response : InsertTransactionResponse) : Option Nat :=
  match response with
  | ⟨some ids, none⟩ => ids.head?
  | ⟨some ids, some errors⟩ =>
    if anyAlreadyExists errors then none else ids.head?
  | ⟨none, some errors⟩ =>
    if anyAlreadyExists errors then none else none
  | ⟨none, none⟩ => none

/-- The outcome of one full `insert_single_transaction` call as seen by
the batch loop: a hard error (network/status failure), or the interpreted
optional id. -/
abbrev InsertOutcome := Except String (Option Nat)

/-- The accumulator loop of `insert_transactions`
(`src/lunchmoney.rs` 119–128): sequential, an `Ok(Some(id))` appends the
id, an `Ok(None)` bumps the duplicate count, a hard error is only logged
and skips the transaction. -/
def insertLoop (results : Transaction → InsertOutcome) :
    List Transaction → List Nat → Nat → List Nat × Nat
  | [], inserted, existing => (inserted, existing)
  | t :: rest, inserted, existing =>
    match results t with
    | Except.ok (some id) => insertLoop results rest (inserted ++ [id]) existing
    | Except.ok none => insertLoop results rest inserted (existing + 1)
    | Except.error _ => insertLoop results rest inserted existing

/-- Model of `insert_transactions` (`src/lunchmoney.rs` 114–131), parameterized by
the per-transaction oracle `results` giving what the single-transaction
insert returns for each transaction (including hard network/status
errors).  The Rust return type is `Result`, but the function always
returns `Ok` — it never aborts the batch. -/
def insert_transactions (results : Transaction → InsertOutcome)
    (transactions : List Transaction) : Except String (List Nat × Nat) :=
  Except.ok (insertLoop results transactions [] 0)

/-- The post-success verification of `update_asset_balance`
(`src/lunchmoney.rs` 165–186): re-read the echoed asset from the response
body and require the echoed balance to equal the requested balance and
the echoed currency to equal the lowercased requested currency code.
`balance_currency` is the ISO code the `rusty_money` currency displays
(e.g. "CLP"); the Rust error messages carry the mismatching values, which
are abbreviated here. -/
def update_asset_balance (echoed : Asset) (new_balance : Amount)
    (balance_currency : String) : Except String Unit :=
  if echoed.balance ≠ new_balance then
    Except.error "Failed to update Lunch Money asset balance: balance mismatch"
  else if echoed.currency ≠ strLower balance_currency then
    Except.error "Failed to update Lunch Money asset balance: currency mismatch"
  else Except.ok ()

/-- A concrete page oracle: 300 records on pages 1 and 2, an empty page
3 (and empty pages beyond). -/
def pagesGood : Nat → PageResponse := fun k =>
  if k = 1 then PageResponse.ok (List.replicate 300 mvCompraNacional)
  else if k = 2 then PageResponse.ok (List.replicate 300 mvCompraNacional)
  else PageResponse.ok []

/-- A concrete page oracle: one non-empty page, then a 500 status. -/
def pagesBad : Nat → PageResponse := fun k =>
  if k = 1 then PageResponse.ok [mvCompraNacional] else PageResponse.errStatus 500

/-- A concrete CLP credit account with limit 100000 and available 30000. -/
def accCredit : Account where
  id := "acc_1"
  object := "account"
  name := "Tarjeta"
  official_name := "Tarjeta de credito"
  number := none
  holder_id := "h_1"
  holder_name := "Alice"
  account_type := "credit_card"
  currency := "CLP"
  balance := { available := 30000, current := -1, limit := 100000 }
  refreshed_at := none

/-- A concrete USD checking account with a current balance of 5000 minor
units. -/
def accUsd : Account where
  id := "acc_2"
  object := "account"
  name := "Cuenta"
  official_name := "Cuenta corriente"
  number := some "42"
  holder_id := "h_1"
  holder_name := "Alice"
  account_type := "checking_account"
  currency := "usd"
  balance := { available := 5000, current := 5000, limit := 0 }
  refreshed_at := none

/-- A concrete echoed asset for the balance-update verification. -/
def assetEcho : Asset :=
  { Asset.default with id := some 7, balance := ⟨70000⟩, currency := "clp" }

/-- Two concrete ledger transactions distinguished by external id. -/
def txA : Transaction := { Transaction.default with external_id := some "a" }

/-- See `txA`. -/
def txB : Transaction := { Transaction.default with external_id := some "b" }

/-- An oracle reporting "already exists" (i.e. `Ok(None)`) for every
transaction. -/
def resultsAllDup : Transaction → InsertOutcome := fun _ => Except.ok none

/-- An oracle inserting `txA` with id 11 and failing hard on everything
else. -/
def resultsMixed : Transaction → InsertOutcome := fun t =>
  if t.external_id = some "a" then Except.ok (some 11)
  else Except.error "network failure"

/-! ## Characterization lemmas for the regex embedding -/

theorem matchLit_some_iff (p : List Char) :
    ∀ s r : List Char, matchLit p s = some r ↔
      ∃ l, s = l ++ r ∧ l.map Char.toLower = p := by
  induction p with
  | nil =>
    intro s r
    simp only [matchLit, Option.some.injEq, List.map_eq_nil_iff]
    constructor
    · rintro rfl; exact ⟨[], rfl, rfl⟩
    · rintro ⟨l, rfl, rfl⟩; rfl
  | cons p ps ih =>
    intro s r
    cases s with
    | nil =>
      simp only [matchLit]
      constructor
      · intro h; exact absurd h (by simp)
      · rintro ⟨l, hl, hm⟩
        cases l with
        | nil => simp at hm
        | cons a as => simp at hl
    | cons c cs =>
      simp only [matchLit]
      by_cases hc : c.toLower = p
      · rw [if_pos hc, ih]
        constructor
        · rintro ⟨l, rfl, rfl⟩; exact ⟨c :: l, rfl, by simp [hc]⟩
        · rintro ⟨l, hl, hm⟩
          cases l with
          | nil => simp at hm
          | cons a as =>
            simp only [List.cons_append, List.cons.injEq] at hl
            simp only [List.map_cons, List.cons.injEq] at hm
            exact ⟨as, hl.2, hm.2⟩
      · rw [if_neg hc]
        constructor
        · intro h; exact absurd h (by simp)
        · rintro ⟨l, hl, hm⟩
          cases l with
          | nil => simp at hm
          | cons a as =>
            simp only [List.cons_append, List.cons.injEq] at hl
            simp only [List.map_cons, List.cons.injEq] at hm
            exact absurd (hl.1 ▸ hm.1) hc

theorem matchWs_some_iff (s r : List Char) :
    matchWs s = some r ↔ ∃ w, s = w :: r ∧ isWsChar w = true := by
  cases s with
  | nil => simp [matchWs]
  | cons c cs =>
    simp only [matchWs]
    by_cases hc : isWsChar c
    · rw [if_pos hc]
      simp only [Option.some.injEq]
      constructor
      · rintro rfl; exact ⟨c, rfl, hc⟩
      · rintro ⟨w, hw, _⟩
        exact (List.cons_eq_cons.mp hw).2
    · rw [if_neg hc]
      constructor
      · intro h; exact absurd h (by simp)
      · rintro ⟨w, hw, hws⟩
        rw [(List.cons_eq_cons.mp hw).1] at hc
        exact absurd hws hc

theorem matchDotTail_some_iff (s r : List Char) :
    matchDotTail s = some r ↔
      ∃ c w, s = c :: w :: r ∧ c ≠ '\n' ∧ isWsChar w = true := by
  cases s with
  | nil => simp [matchDotTail]
  | cons c cs =>
    simp only [matchDotTail]
    by_cases hc : c = '\n'
    · rw [if_pos hc]
      constructor
      · intro h; exact absurd h (by simp)
      · rintro ⟨c', w, hw, hc', _⟩
        rw [← (List.cons_eq_cons.mp hw).1] at hc'
        exact absurd hc hc'
    · rw [if_neg hc, matchWs_some_iff]
      constructor
      · rintro ⟨w, hw, hws⟩
        exact ⟨c, w, by rw [hw], hc, hws⟩
      · rintro ⟨c', w, hw, _, hws⟩
        exact ⟨w, (List.cons_eq_cons.mp hw).2, hws⟩

theorem matchAlt_some_iff (p s r : List Char) :
    matchAlt p s = some r ↔
      ∃ l w, s = l ++ w :: r ∧ l.map Char.toLower = p ∧ isWsChar w = true := by
  simp only [matchAlt, Option.bind_eq_some]
  constructor
  · rintro ⟨mid, hlit, hws⟩
    rcases (matchLit_some_iff p s mid).mp hlit with ⟨l, rfl, hmap⟩
    rcases (matchWs_some_iff mid r).mp hws with ⟨w, rfl, hw⟩
    exact ⟨l, w, rfl, hmap, hw⟩
  · rintro ⟨l, w, rfl, hmap, hw⟩
    refine ⟨w :: r, ?_, ?_⟩
    · exact (matchLit_some_iff p _ _).mpr ⟨l, rfl, hmap⟩
    · exact (matchWs_some_iff _ _).mpr ⟨w, rfl, hw⟩

theorem matchAltDot_some_iff (s r : List Char) :
    matchAltDot s = some r ↔
      ∃ l c w, s = l ++ c :: w :: r ∧
        l.map Char.toLower = "compra inter".data ∧
        c ≠ '\n' ∧ isWsChar w = true := by
  simp only [matchAltDot, Option.bind_eq_some]
  constructor
  · rintro ⟨mid, hlit, htail⟩
    rcases (matchLit_some_iff _ _ _).mp hlit with ⟨l, rfl, hmap⟩
    rcases (matchDotTail_some_iff mid r).mp htail with ⟨c, w, rfl, hc, hw⟩
    exact ⟨l, c, w, rfl, hmap, hc, hw⟩
  · rintro ⟨l, c, w, rfl, hmap, hc, hw⟩
    refine ⟨c :: w :: r, ?_, ?_⟩
    · exact (matchLit_some_iff _ _ _).mpr ⟨l, rfl, hmap⟩
    · exact (matchDotTail_some_iff _ _).mpr ⟨c, w, rfl, hc, hw⟩

/-- Master elimination lemma: every field of a successfully normalized
transaction, read off `Movement::to_lunchmoney_transaction`. -/
theorem to_lunchmoney_transaction_ok {m : Movement} {aid : Nat} {t : Transaction}
    (h : m.to_lunchmoney_transaction aid = Except.ok t) :
    scaleAmount m.currency m.amount = Except.ok t.amount ∧
    t.date = m.transaction_date.getD m.post_date ∧
    t.payee = some (derivePayee m) ∧
    t.currency = some (strLower m.currency) ∧
    t.asset_id = some aid ∧
    t.status = TransactionStatus.Uncleared ∧
    t.external_id = some m.id ∧
    t.notes = m.comment ∧
    t.original_name = some m.description ∧
    t.is_pending = some m.pending := by
  unfold Movement.to_lunchmoney_transaction at h
  cases hs : scaleAmount m.currency m.amount with
  | error e => rw [hs] at h; exact absurd h (by simp)
  | ok a =>
    rw [hs] at h
    simp only [Except.ok.injEq] at h
    subst h
    exact ⟨rfl, rfl, rfl, rfl, rfl, rfl, rfl, rfl, rfl, rfl⟩

/-! ## Equation lemmas for the payee derivation -/

theorem derivePayee_transfer_pos {m : Movement} (hmt : m.movement_type = MovementType.Transfer)
    (h0 : 0 < m.amount) {acct : TransferAccount} (hs : m.sender_account = some acct) :
    derivePayee m = payeeFromAccount acct := by
  unfold derivePayee
  rw [hmt, if_pos h0, hs]

theorem derivePayee_transfer_nonpos {m : Movement} (hmt : m.movement_type = MovementType.Transfer)
    (h0 : m.amount ≤ 0) {acct : TransferAccount} (hr : m.recipient_account = some acct) :
    derivePayee m = payeeFromAccount acct := by
  unfold derivePayee
  rw [hmt, if_neg (not_lt.mpr h0), hr]

theorem derivePayee_transfer_pos_none {m : Movement} (hmt : m.movement_type = MovementType.Transfer)
    (h0 : 0 < m.amount) (hs : m.sender_account = none) :
    derivePayee m = m.clean_description := by
  unfold derivePayee
  rw [hmt, if_pos h0, hs]

theorem derivePayee_transfer_nonpos_none {m : Movement} (hmt : m.movement_type = MovementType.Transfer)
    (h0 : m.amount ≤ 0) (hr : m.recipient_account = none) :
    derivePayee m = m.clean_description := by
  unfold derivePayee
  rw [hmt, if_neg (not_lt.mpr h0), hr]

theorem derivePayee_not_transfer {m : Movement} (hmt : m.movement_type ≠ MovementType.Transfer) :
    derivePayee m = m.clean_description := by
  unfold derivePayee
  cases hm : m.movement_type with
  | Transfer => exact absurd hm hmt
  | Check => rfl
  | Other => rfl

theorem payeeFromAccount_some {acct : TransferAccount} {inst : Institution}
    (hi : acct.institution = some inst) :
    payeeFromAccount acct = acct.holder_name ++ " (" ++ inst.name ++ ")" := by
  unfold payeeFromAccount
  rw [hi]

theorem payeeFromAccount_none {acct : TransferAccount} (hi : acct.institution = none) :
    payeeFromAccount acct = acct.holder_name := by
  unfold payeeFromAccount
  rw [hi]

/-! ## Claim C1 -/

/-- C1: whenever normalization succeeds, the produced transaction has
date = transaction date when present else post date, currency = the
lowercased movement currency, status fixed to uncleared, external id =
the movement id, original name = the raw uncleaned description,
is-pending = the movement's pending flag, and notes = the movement's
comment when present (and absent otherwise). -/
theorem normalize_propagates_fields (m : Movement) (aid : Nat) (t : Transaction)
    (h : m.to_lunchmoney_transaction aid = Except.ok t) :
    t.date = m.transaction_date.getD m.post_date ∧
    t.currency = some (strLower m.currency) ∧
    t.status = TransactionStatus.Uncleared ∧
    t.external_id = some m.id ∧
    t.original_name = some m.description ∧
    t.is_pending = some m.pending ∧
    t.notes = m.comment := by
  obtain ⟨-, hdate, -, hcur, -, hstat, hext, hnotes, horig, hpend⟩ :=
    to_lunchmoney_transaction_ok h
  exact ⟨hdate, hcur, hstat, hext, horig, hpend, hnotes⟩

/-- Witness for C1 at a concrete movement (`mvTransferIn`). -/
theorem normalize_propagates_fields_witness :
    mvTransferIn.to_lunchmoney_transaction 9 = Except.ok (okTransaction mvTransferIn 9) ∧
    (okTransaction mvTransferIn 9).date = ⟨299⟩ ∧
    (okTransaction mvTransferIn 9).currency = some "usd" ∧
    (okTransaction mvTransferIn 9).status = TransactionStatus.Uncleared ∧
    (okTransaction mvTransferIn 9).external_id = some "mov_3" ∧
    (okTransaction mvTransferIn 9).original_name = some "TRANSFERENCIA DE ALICE" ∧
    (okTransaction mvTransferIn 9).is_pending = some true ∧
    (okTransaction mvTransferIn 9).notes = some "rent" := by
  have h : mvTransferIn.to_lunchmoney_transaction 9 =
      Except.ok (okTransaction mvTransferIn 9) := rfl
  obtain ⟨hdate, hcur, hstat, hext, horig, hpend, hnotes⟩ :=
    normalize_propagates_fields mvTransferIn 9 _ h
  exact ⟨h, hdate.trans (by decide), hcur.trans (by decide), hstat,
    hext.trans (by decide), horig.trans (by decide), hpend.trans (by decide),
    hnotes.trans (by decide)⟩

/-! ## Claim C2 -/

/-- C2: the normalized amount is the movement's signed minor-unit amount
divided by 100 when the currency code is (case-insensitively) USD or EUR,
the unscaled amount when it is CLP, and for any other currency code the
normalization returns the "currency not supported" validation error
rather than any default value. -/
theorem normalize_currency_scaling :
    (∀ (m : Movement) (aid : Nat),
      strUpper m.currency = "USD" ∨ strUpper m.currency = "EUR" →
      ∃ t, m.to_lunchmoney_transaction aid = Except.ok t ∧
        t.amount = ⟨(m.amount : ℚ) / 100⟩) ∧
    (∀ (m : Movement) (aid : Nat), strUpper m.currency = "CLP" →
      ∃ t, m.to_lunchmoney_transaction aid = Except.ok t ∧
        t.amount = ⟨(m.amount : ℚ)⟩) ∧
    (∀ (m : Movement) (aid : Nat),
      strUpper m.currency ≠ "CLP" → strUpper m.currency ≠ "USD" →
      strUpper m.currency ≠ "EUR" →
      m.to_lunchmoney_transaction aid =
        Except.error ("Currency " ++ strUpper m.currency ++ " is not supported.")) := by
  refine ⟨?_, ?_, ?_⟩
  · intro m aid h
    have hs : scaleAmount m.currency m.amount = Except.ok ⟨(m.amount : ℚ) / 100⟩ := by
      unfold scaleAmount
      rcases h with h | h <;> rw [h]
      · rw [if_neg (by decide), if_pos rfl]
      · rw [if_neg (by decide), if_neg (by decide), if_pos rfl]
    unfold Movement.to_lunchmoney_transaction
    rw [hs]
    exact ⟨_, rfl, rfl⟩
  · intro m aid h
    have hs : scaleAmount m.currency m.amount = Except.ok ⟨(m.amount : ℚ)⟩ := by
      unfold scaleAmount
      rw [h, if_pos rfl]
    unfold Movement.to_lunchmoney_transaction
    rw [hs]
    exact ⟨_, rfl, rfl⟩
  · intro m aid h1 h2 h3
    unfold Movement.to_lunchmoney_transaction scaleAmount
    rw [if_neg h1, if_neg h2, if_neg h3]

/-- Witness for C2 at three concrete movements: a USD movement is scaled
by 100, a CLP movement is passed through, a GBP movement is rejected. -/
theorem normalize_currency_scaling_witness :
    (∃ t, mvTransferIn.to_lunchmoney_transaction 9 = Except.ok t ∧
      t.amount = ⟨1500⟩) ∧
    (∃ t, mvCompraNacional.to_lunchmoney_transaction 7 = Except.ok t ∧
      t.amount = ⟨-12345⟩) ∧
    mvUnsupported.to_lunchmoney_transaction 3 =
      Except.error "Currency GBP is not supported." := by
  refine ⟨?_, ?_, ?_⟩
  · obtain ⟨t, ht, ha⟩ :=
      normalize_currency_scaling.1 mvTransferIn 9 (Or.inl (by decide))
    refine ⟨t, ht, ha.trans ?_⟩
    simp only [show mvTransferIn.amount = 150000 from rfl, Amount.mk.injEq]
    norm_num
  · obtain ⟨t, ht, ha⟩ :=
      normalize_currency_scaling.2.1 mvCompraNacional 7 (by decide)
    refine ⟨t, ht, ha.trans ?_⟩
    simp only [show mvCompraNacional.amount = -12345 from rfl, Amount.mk.injEq]
    norm_num
  · have h := normalize_currency_scaling.2.2 mvUnsupported 3
      (by decide) (by decide) (by decide)
    exact h.trans (congrArg Except.error (by decide))

/-! ## Claim C3 -/

/-- C3: for a transfer, a strictly positive amount selects the sender
counterparty and a non-positive amount the recipient; a present
counterparty yields payee "holder (institution)" when an institution is
present and just the holder name otherwise; an absent counterparty, or a
non-transfer movement, yields the cleaned description. -/
theorem normalize_payee_derivation (m : Movement) (aid : Nat) (t : Transaction)
    (h : m.to_lunchmoney_transaction aid = Except.ok t) :
    (∀ acct inst, m.movement_type = MovementType.Transfer → 0 < m.amount →
      m.sender_account = some acct → acct.institution = some inst →
      t.payee = some (acct.holder_name ++ " (" ++ inst.name ++ ")")) ∧
    (∀ acct, m.movement_type = MovementType.Transfer → 0 < m.amount →
      m.sender_account = some acct → acct.institution = none →
      t.payee = some acct.holder_name) ∧
    (∀ acct inst, m.movement_type = MovementType.Transfer → m.amount ≤ 0 →
      m.recipient_account = some acct → acct.institution = some inst →
      t.payee = some (acct.holder_name ++ " (" ++ inst.name ++ ")")) ∧
    (∀ acct, m.movement_type = MovementType.Transfer → m.amount ≤ 0 →
      m.recipient_account = some acct → acct.institution = none →
      t.payee = some acct.holder_name) ∧
    (m.movement_type = MovementType.Transfer → 0 < m.amount →
      m.sender_account = none → t.payee = some m.clean_description) ∧
    (m.movement_type = MovementType.Transfer → m.amount ≤ 0 →
      m.recipient_account = none → t.payee = some m.clean_description) ∧
    (m.movement_type ≠ MovementType.Transfer →
      t.payee = some m.clean_description) := by
  have hp : t.payee = some (derivePayee m) := (to_lunchmoney_transaction_ok h).2.2.1
  refine ⟨?_, ?_, ?_, ?_, ?_, ?_, ?_⟩
  · intro acct inst hmt h0 hs hi
    rw [hp, derivePayee_transfer_pos hmt h0 hs, payeeFromAccount_some hi]
  · intro acct hmt h0 hs hi
    rw [hp, derivePayee_transfer_pos hmt h0 hs, payeeFromAccount_none hi]
  · intro acct inst hmt h0 hr hi
    rw [hp, derivePayee_transfer_nonpos hmt h0 hr, payeeFromAccount_some hi]
  · intro acct hmt h0 hr hi
    rw [hp, derivePayee_transfer_nonpos hmt h0 hr, payeeFromAccount_none hi]
  · intro hmt h0 hs
    rw [hp, derivePayee_transfer_pos_none hmt h0 hs]
  · intro hmt h0 hr
    rw [hp, derivePayee_transfer_nonpos_none hmt h0 hr]
  · intro hmt
    rw [hp, derivePayee_not_transfer hmt]

/-- Witness for C3: a positive transfer with a sender that has an
institution, and a negative transfer with an institution-less recipient. -/
theorem normalize_payee_derivation_witness :
    (okTransaction mvTransferIn 9).payee = some "Alice (BancoChile)" ∧
    (okTransaction mvTransferOut 9).payee = some "Bob" := by
  constructor
  · have h : mvTransferIn.to_lunchmoney_transaction 9 =
        Except.ok (okTransaction mvTransferIn 9) := rfl
    have hc := (normalize_payee_derivation mvTransferIn 9 _ h).1 acctSender instBanco
      rfl (by decide) rfl rfl
    exact hc.trans (by decide)
  · have h : mvTransferOut.to_lunchmoney_transaction 9 =
        Except.ok (okTransaction mvTransferOut 9) := rfl
    have hc := (normalize_payee_derivation mvTransferOut 9 _ h).2.2.2.1 acctRecipient
      rfl (by decide) rfl rfl
    exact hc.trans (by decide)

/-! ## Claim C4 -/

/-- Counterexample to C4 as stated: "COMPRA INTERX Y" does not start with
any of the four listed markers (even case-insensitively), yet cleaning
changes it to "Y", because the final `.` of `COMPRA INTER.` is an
unescaped regex wildcard. -/
theorem clean_description_wildcard_counterexample :
    mvCompraInterX.description = "COMPRA INTERX Y" ∧
    startsWithClaimMarker "COMPRA INTERX Y" = false ∧
    mvCompraInterX.clean_description = "Y" ∧
    mvCompraInterX.clean_description ≠ mvCompraInterX.description := by
  exact ⟨rfl, by decide, by decide, by decide⟩

/-- C4 (amended): description cleaning removes, ASCII-case-insensitively,
a leading "COMPRA INTERNACIONAL", "COMPRA NACIONAL" or "PAGO RECURRENTE",
or a leading "COMPRA INTER" followed by any single non-newline character
(the final dot of "COMPRA INTER." is an unescaped regex wildcard), in
each case together with one following whitespace character, leaving the
rest of the description unchanged; descriptions that do not start with
such a marker-plus-whitespace are left unchanged; in particular cleaning
"COMPRA NACIONAL SUPERMARKET X" yields "SUPERMARKET X". -/
theorem clean_description_spec :
    (∀ m : Movement,
      (∃ r, StripSpec m.description.data r ∧ m.clean_description = String.mk r) ∨
      ((∀ r, ¬ StripSpec m.description.data r) ∧
        m.clean_description = m.description)) ∧
    mvCompraNacional.clean_description = "SUPERMARKET X" := by
  constructor
  · intro m
    unfold Movement.clean_description cleanChars
    cases h1 : matchAlt "compra internacional".data m.description.data with
    | some rest =>
      exact Or.inl ⟨rest, Or.inl ((matchAlt_some_iff _ _ _).mp h1), rfl⟩
    | none =>
      cases h2 : matchAlt "compra nacional".data m.description.data with
      | some rest =>
        exact Or.inl ⟨rest, Or.inr (Or.inl ((matchAlt_some_iff _ _ _).mp h2)), rfl⟩
      | none =>
        cases h3 : matchAlt "pago recurrente".data m.description.data with
        | some rest =>
          exact Or.inl ⟨rest, Or.inr (Or.inr (Or.inl
            ((matchAlt_some_iff _ _ _).mp h3))), rfl⟩
        | none =>
          cases h4 : matchAltDot m.description.data with
          | some rest =>
            exact Or.inl ⟨rest, Or.inr (Or.inr (Or.inr
              ((matchAltDot_some_iff _ _).mp h4))), rfl⟩
          | none =>
            refine Or.inr ⟨?_, rfl⟩
            intro r hr
            rcases hr with h | h | h | h
            · have := (matchAlt_some_iff _ _ r).mpr h
              rw [h1] at this; exact absurd this (by simp)
            · have := (matchAlt_some_iff _ _ r).mpr h
              rw [h2] at this; exact absurd this (by simp)
            · have := (matchAlt_some_iff _ _ r).mpr h
              rw [h3] at this; exact absurd this (by simp)
            · have := (matchAltDot_some_iff _ r).mpr h
              rw [h4] at this; exact absurd this (by simp)
  · decide

/-! ## Stepping lemmas for the pagination loop -/

theorem fetchLoop_step_cont (pages : Nat → PageResponse) (fuel page : Nat)
    (acc : List Movement) (reqs : Nat) {l : List Movement} (h : pages page = PageResponse.ok l) (hne : l.isEmpty = false) :
    fetchLoop pages (fuel + 1) page acc reqs =
      fetchLoop pages fuel (page + 1) (acc ++ l) (reqs + 1) := by
  simp [fetchLoop, h, hne]

theorem fetchLoop_step_done (pages : Nat → PageResponse) (fuel page : Nat)
    (acc : List Movement) (reqs : Nat)
    (h : pages page = PageResponse.ok []) :
    fetchLoop pages (fuel + 1) page acc reqs = some (Except.ok (acc, reqs + 1)) := by
  simp [fetchLoop, h]

theorem fetchLoop_step_err (pages : Nat → PageResponse) (fuel page : Nat)
    (acc : List Movement) (reqs code : Nat)
    (h : pages page = PageResponse.errStatus code) :
    fetchLoop pages (fuel + 1) page acc reqs =
      some (Except.error ("Failed to get Fintoc transactions, code " ++ toString code)) := by
  simp [fetchLoop, h]

theorem fetchLoop_step_notArray (pages : Nat → PageResponse) (fuel page : Nat)
    (acc : List Movement) (reqs : Nat)
    (h : pages page = PageResponse.notArray) :
    fetchLoop pages (fuel + 1) page acc reqs =
      some (Except.error "Data is not an array") := by
  simp [fetchLoop, h]

/-- Any bad page reachable through non-empty good pages aborts the whole
loop with an error (and hence no accumulated movements are returned). -/
theorem fetchLoop_abort (pages : Nat → PageResponse) :
    ∀ (n fuel page : Nat) (acc : List Movement) (reqs : Nat),
      (∀ k, page ≤ k → k < page + n →
        ∃ l, pages k = PageResponse.ok l ∧ l ≠ []) →
      ((∃ code, pages (page + n) = PageResponse.errStatus code) ∨
        pages (page + n) = PageResponse.notArray) →
      n < fuel →
      ∃ msg, fetchLoop pages fuel page acc reqs = some (Except.error msg) := by
  intro n
  induction n with
  | zero =>
    intro fuel page acc reqs hok hbad hfuel
    obtain ⟨f, rfl⟩ : ∃ f, fuel = f + 1 := ⟨fuel - 1, by omega⟩
    simp only [Nat.add_zero] at hbad
    rcases hbad with ⟨code, hc⟩ | hc
    · exact ⟨_, fetchLoop_step_err pages f page acc reqs code hc⟩
    · exact ⟨_, fetchLoop_step_notArray pages f page acc reqs hc⟩
  | succ n ih =>
    intro fuel page acc reqs hok hbad hfuel
    obtain ⟨f, rfl⟩ : ∃ f, fuel = f + 1 := ⟨fuel - 1, by omega⟩
    obtain ⟨l, hl, hne⟩ := hok page (Nat.le_refl _) (by omega)
    have hne' : l.isEmpty = false := by
      cases l with
      | nil => exact absurd rfl hne
      | cons a as => rfl
    rw [fetchLoop_step_cont pages f page acc reqs hl hne']
    refine ih f (page + 1) (acc ++ l) (reqs + 1) ?_ ?_ (by omega)
    · intro k hk1 hk2
      exact hok k (by omega) (by omega)
    · have harr : page + 1 + n = page + (n + 1) := by omega
      rw [harr]
      exact hbad

/-- When pages `page, …, page+n-1` are non-empty and page `page+n` is
empty, the loop accumulates all their records in page order and issues
exactly `n + 1` further requests. -/
theorem fetchLoop_success (pages : Nat → PageResponse) (ls : Nat → List Movement) :
    ∀ (n fuel page : Nat) (acc : List Movement) (reqs : Nat),
      (∀ k, page ≤ k → k < page + n →
        pages k = PageResponse.ok (ls k) ∧ ls k ≠ []) →
      pages (page + n) = PageResponse.ok [] →
      n < fuel →
      fetchLoop pages fuel page acc reqs =
        some (Except.ok (acc ++ (List.range' page n).flatMap ls, reqs + n + 1)) := by
  intro n
  induction n with
  | zero =>
    intro fuel page acc reqs hok hend hfuel
    obtain ⟨f, rfl⟩ : ∃ f, fuel = f + 1 := ⟨fuel - 1, by omega⟩
    simp only [Nat.add_zero] at hend
    rw [fetchLoop_step_done pages f page acc reqs hend]
    simp [List.range']
  | succ n ih =>
    intro fuel page acc reqs hok hend hfuel
    obtain ⟨f, rfl⟩ : ∃ f, fuel = f + 1 := ⟨fuel - 1, by omega⟩
    obtain ⟨hpage, hne⟩ := hok page (Nat.le_refl _) (by omega)
    have hne' : (ls page).isEmpty = false := by
      cases hl : ls page with
      | nil => exact absurd hl hne
      | cons a as => rfl
    have hok' : ∀ k, page + 1 ≤ k → k < page + 1 + n →
        pages k = PageResponse.ok (ls k) ∧ ls k ≠ [] :=
      fun k hk1 hk2 => hok k (by omega) (by omega)
    have hend' : pages (page + 1 + n) = PageResponse.ok [] := by
      have harr : page + 1 + n = page + (n + 1) := by omega
      rw [harr]
      exact hend
    rw [fetchLoop_step_cont pages f page acc reqs hpage hne',
      ih f (page + 1) (acc ++ ls page) (reqs + 1) hok' hend' (by omega)]
    simp only [List.range', List.flatMap_cons, List.append_assoc, Option.some.injEq,
      Except.ok.injEq, Prod.mk.injEq, true_and, and_true]
    omega

/-! ## Claim C5 -/

/-- C5: fetching starts at page 1 and increments the page number until a
page returns zero records, accumulating the records of every page in
order (general part, with the request count `n + 1`); in particular a
[300, 300, 0] page sequence yields all 600 movements in exactly 3
requests; and a non-success status or a non-array payload on any page
aborts the whole fetch with an error — the result then carries no
movements at all. -/
theorem fetch_movements_pagination :
    (∀ (pages : Nat → PageResponse) (ls : Nat → List Movement) (n fuel : Nat),
      (∀ k, 1 ≤ k → k ≤ n → pages k = PageResponse.ok (ls k) ∧ ls k ≠ []) →
      pages (n + 1) = PageResponse.ok [] →
      n < fuel →
      fetch_fintoc_movements pages fuel =
        some (Except.ok ((List.range' 1 n).flatMap ls, n + 1))) ∧
    (∀ (pages : Nat → PageResponse) (l1 l2 : List Movement) (fuel : Nat),
      pages 1 = PageResponse.ok l1 → pages 2 = PageResponse.ok l2 →
      pages 3 = PageResponse.ok [] →
      l1.length = 300 → l2.length = 300 → 3 ≤ fuel →
      fetch_fintoc_movements pages fuel = some (Except.ok (l1 ++ l2, 3))) ∧
    (∀ (pages : Nat → PageResponse) (n fuel : Nat),
      (∀ k, 1 ≤ k → k ≤ n → ∃ l, pages k = PageResponse.ok l ∧ l ≠ []) →
      ((∃ code, pages (n + 1) = PageResponse.errStatus code) ∨
        pages (n + 1) = PageResponse.notArray) →
      n < fuel →
      ∃ msg, fetch_fintoc_movements pages fuel = some (Except.error msg)) := by
  have hgen : ∀ (pages : Nat → PageResponse) (ls : Nat → List Movement) (n fuel : Nat),
      (∀ k, 1 ≤ k → k ≤ n → pages k = PageResponse.ok (ls k) ∧ ls k ≠ []) →
      pages (n + 1) = PageResponse.ok [] →
      n < fuel →
      fetch_fintoc_movements pages fuel =
        some (Except.ok ((List.range' 1 n).flatMap ls, n + 1)) := by
    intro pages ls n fuel hok hend hfuel
    unfold fetch_fintoc_movements
    rw [fetchLoop_success pages ls n fuel 1 [] 0
      (fun k hk1 hk2 => hok k hk1 (by omega))
      (by
        have harr : 1 + n = n + 1 := by omega
        rw [harr]
        exact hend)
      hfuel]
    simp
  refine ⟨hgen, ?_, ?_⟩
  · intro pages l1 l2 fuel h1 h2 h3 hl1 hl2 hfuel
    have happ := hgen pages (fun k => if k = 1 then l1 else l2) 2 fuel ?_ ?_ (by omega)
    · rw [happ]
      have hbind : (List.range' 1 2).flatMap (fun k => if k = 1 then l1 else l2) =
          l1 ++ l2 := by
        simp [List.range', List.flatMap_cons]
      rw [hbind]
    · intro k hk1 hk2
      have hne1 : l1 ≠ [] := by
        intro hc
        rw [hc] at hl1
        simp at hl1
      have hne2 : l2 ≠ [] := by
        intro hc
        rw [hc] at hl2
        simp at hl2
      have hk : k = 1 ∨ k = 2 := by omega
      rcases hk with rfl | rfl
      · exact ⟨by simpa using h1, by simpa using hne1⟩
      · exact ⟨by simpa using h2, by simpa using hne2⟩
    · simpa using h3
  · intro pages n fuel hok hbad hfuel
    refine fetchLoop_abort pages n fuel 1 [] 0 ?_ ?_ hfuel
    · intro k hk1 hk2
      exact hok k hk1 (by omega)
    · have harr : 1 + n = n + 1 := by omega
      rw [harr]
      exact hbad

/-- Witness for C5: the [300, 300, 0] oracle returns 600 movements in 3
requests; one good page followed by a 500 status aborts. -/
theorem fetch_movements_pagination_witness :
    fetch_fintoc_movements pagesGood 3 =
      some (Except.ok (List.replicate 600 mvCompraNacional, 3)) ∧
    (∃ msg, fetch_fintoc_movements pagesBad 2 = some (Except.error msg)) := by
  constructor
  · rw [show (600 : Nat) = 300 + 300 from rfl, List.replicate_add]
    exact fetch_movements_pagination.2.1 pagesGood _ _ 3 rfl rfl rfl
      (by rw [List.length_replicate]) (by rw [List.length_replicate]) (by omega)
  · refine fetch_movements_pagination.2.2 pagesBad 1 2 ?_ ?_ (by omega)
    · intro k hk1 hk2
      have hk : k = 1 := by omega
      subst hk
      exact ⟨[mvCompraNacional], rfl, by simp⟩
    · exact Or.inl ⟨500, rfl⟩

/-! ## Claim C6 -/

/-- C6: the computed balance before scaling is the provider's `current`
for checking and savings accounts and `limit - available` for credit
accounts; the same currency scaling as normalization is then applied (CLP
unscaled, USD/EUR divided by 100, any other currency a hard error); for
a credit account with limit 100000 and available 30000 the pre-scaling
balance is 70000. -/
theorem fetch_balance_computation :
    (∀ acc : Account,
      rawFintocBalance AccountType.Checking acc = ⟨(acc.balance.current : ℚ)⟩ ∧
      rawFintocBalance AccountType.Savings acc = ⟨(acc.balance.current : ℚ)⟩ ∧
      rawFintocBalance AccountType.Credit acc =
        ⟨((acc.balance.limit - acc.balance.available : Int) : ℚ)⟩) ∧
    (∀ (acc : Account) (ty : AccountType), strUpper acc.currency = "CLP" →
      fetch_fintoc_balance ty acc = Except.ok (rawFintocBalance ty acc)) ∧
    (∀ (acc : Account) (ty : AccountType),
      strUpper acc.currency = "USD" ∨ strUpper acc.currency = "EUR" →
      fetch_fintoc_balance ty acc =
        Except.ok ⟨(rawFintocBalance ty acc).val / 100⟩) ∧
    (∀ (acc : Account) (ty : AccountType),
      strUpper acc.currency ≠ "CLP" → strUpper acc.currency ≠ "USD" →
      strUpper acc.currency ≠ "EUR" →
      fetch_fintoc_balance ty acc =
        Except.error ("Currency " ++ strUpper acc.currency ++ " is not supported.")) ∧
    (∀ acc : Account, acc.balance.limit = 100000 → acc.balance.available = 30000 →
      rawFintocBalance AccountType.Credit acc = ⟨70000⟩) := by
  refine ⟨?_, ?_, ?_, ?_, ?_⟩
  · intro acc
    exact ⟨rfl, rfl, rfl⟩
  · intro acc ty h
    unfold fetch_fintoc_balance
    rw [h, if_pos rfl]
  · intro acc ty h
    unfold fetch_fintoc_balance
    rcases h with h | h <;> rw [h]
    · rw [if_neg (by decide), if_pos rfl]
    · rw [if_neg (by decide), if_neg (by decide), if_pos rfl]
  · intro acc ty h1 h2 h3
    unfold fetch_fintoc_balance
    rw [if_neg h1, if_neg h2, if_neg h3]
  · intro acc h1 h2
    unfold rawFintocBalance
    rw [h1, h2]
    simp only [Amount.mk.injEq]
    norm_num

/-- Witness for C6: the concrete CLP credit account computes balance
70000, and the USD checking account's current balance 5000 is scaled to
50. -/
theorem fetch_balance_computation_witness :
    fetch_fintoc_balance AccountType.Credit accCredit = Except.ok ⟨70000⟩ ∧
    fetch_fintoc_balance AccountType.Checking accUsd = Except.ok ⟨50⟩ := by
  constructor
  · have h := fetch_balance_computation.2.1 accCredit AccountType.Credit (by decide)
    rw [h, fetch_balance_computation.2.2.2.2 accCredit rfl rfl]
  · have h := fetch_balance_computation.2.2.1 accUsd AccountType.Checking
      (Or.inl (by decide))
    rw [h]
    have hraw : rawFintocBalance AccountType.Checking accUsd =
        ⟨(accUsd.balance.current : ℚ)⟩ := (fetch_balance_computation.1 accUsd).1
    rw [hraw, show accUsd.balance.current = 5000 from rfl]
    simp only [Except.ok.injEq, Amount.mk.injEq]
    norm_num

/-! ## Helper lemma for the error-scanning loop -/

theorem anyAlreadyExists_eq_any (errors : List String) :
    anyAlreadyExists errors =
      errors.any (fun e => strContains e "already exists") := by
  induction errors with
  | nil => rfl
  | cons e rest ih =>
    by_cases h : strContains e "already exists" = true
    · simp [anyAlreadyExists, h]
    · have h' : strContains e "already exists" = false := by
        revert h; cases strContains e "already exists" <;> simp
      simp [anyAlreadyExists, h', ih]

/-! ## Claim C7 -/

/-- C7: for a 200 insert response, a reported error message containing
"already exists" makes the call return no new id; other reported error
messages never make the call fail (the result is still the first id); and
without the duplicate signal the result is the first returned id when the
ids list is non-empty and no id when it is empty or absent. -/
theorem insert_single_interpretation :
    (∀ (r : InsertTransactionResponse) (errors : List String),
      r.error = some errors →
      (∃ e ∈ errors, strContains e "already exists" = true) →
      insert_single_transaction r = none) ∧
    (∀ (ids : List Nat) (errors : List String),
      (∀ e ∈ errors, strContains e "already exists" = false) →
      insert_single_transaction ⟨some ids, some errors⟩ = ids.head?) ∧
    (∀ ids : List Nat, insert_single_transaction ⟨some ids, none⟩ = ids.head?) ∧
    (∀ err : Option (List String), insert_single_transaction ⟨none, err⟩ = none) ∧
    (∀ err : Option (List String),
      insert_single_transaction ⟨some [], err⟩ = none) := by
  refine ⟨?_, ?_, ?_, ?_, ?_⟩
  · rintro ⟨ids, err⟩ errors herr hex
    simp only at herr
    subst herr
    have ha : anyAlreadyExists errors = true := by
      rw [anyAlreadyExists_eq_any, List.any_eq_true]
      obtain ⟨e, he, hc⟩ := hex
      exact ⟨e, he, hc⟩
    cases ids with
    | some l => simp [insert_single_transaction, ha]
    | none => simp [insert_single_transaction, ha]
  · intro ids errors hall
    have ha : anyAlreadyExists errors = false := by
      rw [anyAlreadyExists_eq_any, List.any_eq_false]
      intro e he
      simp [hall e he]
    simp [insert_single_transaction, ha]
  · intro ids
    rfl
  · intro err
    cases err with
    | none => rfl
    | some errors => simp [insert_single_transaction]
  · intro err
    cases err with
    | none => rfl
    | some errors => simp [insert_single_transaction]

/-- Witness for C7 at concrete responses: a duplicate signal yields no
id, another error message still yields the first id, an ids-only response
yields the first id, and an absent or empty ids list yields no id. -/
theorem insert_single_interpretation_witness :
    insert_single_transaction
      ⟨some [42], some ["Transaction with external id 9 already exists."]⟩ = none ∧
    insert_single_transaction ⟨some [7, 8], some ["budget exceeded"]⟩ = some 7 ∧
    insert_single_transaction ⟨some [5], none⟩ = some 5 ∧
    insert_single_transaction ⟨none, none⟩ = none ∧
    insert_single_transaction ⟨some [], some ["budget exceeded"]⟩ = none := by
  refine ⟨?_, ?_, ?_, ?_, ?_⟩
  · exact insert_single_interpretation.1 _ _ rfl
      ⟨"Transaction with external id 9 already exists.", by simp, by decide⟩
  · exact (insert_single_interpretation.2.1 [7, 8] _ (by decide)).trans rfl
  · exact (insert_single_interpretation.2.2.1 [5]).trans rfl
  · exact insert_single_interpretation.2.2.2.1 none
  · exact insert_single_interpretation.2.2.2.2 (some ["budget exceeded"])

/-! ## Characterization of the batch-insert loop -/

theorem insertLoop_spec (results : Transaction → InsertOutcome) (txs : List Transaction) :
    ∀ (inserted : List Nat) (existing : Nat),
      insertLoop results txs inserted existing =
        (inserted ++ txs.filterMap (fun t =>
          match results t with
          | Except.ok (some i) => some i
          | _ => none),
        existing + txs.countP (fun t => decide (results t = Except.ok none))) := by
  induction txs with
  | nil =>
    intro inserted existing
    simp [insertLoop]
  | cons t rest ih =>
    intro inserted existing
    cases h : results t with
    | ok o =>
      cases o with
      | some i =>
        simp [insertLoop, h, ih, List.filterMap_cons, List.countP_cons]
      | none =>
        simp [insertLoop, h, ih, List.filterMap_cons, List.countP_cons]
        omega
    | error e =>
      simp [insertLoop, h, ih, List.filterMap_cons, List.countP_cons]

/-! ## Claim C8 -/

/-- C8: batched insertion runs the single insert once per transaction,
sequentially, and never aborts: the result is always `Ok` of the pair
(ids of the newly inserted transactions, count of duplicate signals), a
hard per-transaction error contributing to neither; in particular when
every insert reports a duplicate the result is no ids and a duplicate
count equal to the batch size. -/
theorem insert_transactions_batch :
    (∀ (results : Transaction → InsertOutcome) (txs : List Transaction),
      insert_transactions results txs =
        Except.ok
          (txs.filterMap (fun t =>
            match results t with
            | Except.ok (some i) => some i
            | _ => none),
          txs.countP (fun t => decide (results t = Except.ok none)))) ∧
    (∀ (results : Transaction → InsertOutcome) (txs : List Transaction),
      (∀ t ∈ txs, results t = Except.ok none) →
      insert_transactions results txs = Except.ok ([], txs.length)) := by
  constructor
  · intro results txs
    unfold insert_transactions
    rw [insertLoop_spec]
    simp
  · intro results txs hall
    unfold insert_transactions
    rw [insertLoop_spec]
    have hfm : txs.filterMap (fun t =>
        match results t with
        | Except.ok (some i) => some i
        | _ => none) = [] := by
      rw [List.filterMap_eq_nil_iff]
      intro t ht
      rw [hall t ht]
    have hc : txs.countP (fun t => decide (results t = Except.ok none)) =
        txs.length := by
      rw [List.countP_eq_length]
      intro t ht
      rw [hall t ht]
      simp
    rw [hfm, hc]
    simp

/-- Witness for C8: a two-element batch where the first insert succeeds
with id 11 and the second fails hard yields exactly ([11], 0); a fully
duplicate two-element batch yields ([], 2). -/
theorem insert_transactions_batch_witness :
    insert_transactions resultsMixed [txA, txB] = Except.ok ([11], 0) ∧
    insert_transactions resultsAllDup [txA, txB] = Except.ok ([], 2) := by
  constructor
  · rw [insert_transactions_batch.1 resultsMixed [txA, txB]]
    decide
  · exact insert_transactions_batch.2 resultsAllDup [txA, txB] (fun t _ => rfl)

/-! ## Claim C9 -/

/-- C9: after a success status, the balance update succeeds exactly when
the echoed balance equals the requested amount and the echoed currency
equals the lowercased requested currency code; any mismatch in either
field yields a hard error, never success. -/
theorem update_balance_verification (echoed : Asset) (b : Amount) (c : String) :
    (update_asset_balance echoed b c = Except.ok () ↔
      echoed.balance = b ∧ echoed.currency = strLower c) ∧
    (echoed.balance ≠ b ∨ echoed.currency ≠ strLower c →
      ∃ msg, update_asset_balance echoed b c = Except.error msg) := by
  constructor
  · constructor
    · intro h
      by_cases h1 : echoed.balance = b
      · by_cases h2 : echoed.currency = strLower c
        · exact ⟨h1, h2⟩
        · rw [update_asset_balance, if_neg (fun hne => hne h1), if_pos h2] at h
          exact absurd h (by simp)
      · rw [update_asset_balance, if_pos h1] at h
        exact absurd h (by simp)
    · rintro ⟨h1, h2⟩
      rw [update_asset_balance, if_neg (fun hne => hne h1),
        if_neg (fun hne => hne h2)]
  · intro h
    rcases h with h | h
    · rw [update_asset_balance, if_pos h]
      exact ⟨_, rfl⟩
    · by_cases h1 : echoed.balance = b
      · rw [update_asset_balance, if_neg (fun hne => hne h1), if_pos h]
        exact ⟨_, rfl⟩
      · rw [update_asset_balance, if_pos h1]
        exact ⟨_, rfl⟩

/-- Witness for C9: the echoed asset (balance 70000, currency "clp")
verifies against a requested CLP update and fails against a requested USD
update. -/
theorem update_balance_verification_witness :
    update_asset_balance assetEcho ⟨70000⟩ "CLP" = Except.ok () ∧
    (∃ msg, update_asset_balance assetEcho ⟨70000⟩ "USD" = Except.error msg) := by
  constructor
  · exact (update_balance_verification assetEcho ⟨70000⟩ "CLP").1.mpr
      ⟨rfl, by decide⟩
  · exact (update_balance_verification assetEcho ⟨70000⟩ "USD").2
      (Or.inr (by decide))

/-! ## Claim C10 -/

/-- C10: in the ids-with-errors case the duplicate signal takes
precedence over the returned ids — any error message containing
"already exists" discards the returned id and the call reports no new
id (and the batch loop then counts it as a duplicate); the first id is
returned precisely when no error message contains that substring. -/
theorem insert_duplicate_precedence :
    (∀ (ids : List Nat) (errors : List String),
      (∃ e ∈ errors, strContains e "already exists" = true) →
      insert_single_transaction ⟨some ids, some errors⟩ = none) ∧
    (∀ (i : Nat) (ids : List Nat) (errors : List String),
      insert_single_transaction ⟨some (i :: ids), some errors⟩ = some i ↔
        ∀ e ∈ errors, strContains e "already exists" = false) ∧
    (∀ (results : Transaction → InsertOutcome) (tx : Transaction),
      results tx = Except.ok none →
      insert_transactions results [tx] = Except.ok ([], 1)) := by
  refine ⟨?_, ?_, ?_⟩
  · intro ids errors hex
    have ha : anyAlreadyExists errors = true := by
      rw [anyAlreadyExists_eq_any, List.any_eq_true]
      obtain ⟨e, he, hc⟩ := hex
      exact ⟨e, he, hc⟩
    simp [insert_single_transaction, ha]
  · intro i ids errors
    by_cases ha : anyAlreadyExists errors = true
    · simp only [insert_single_transaction, ha, if_true]
      constructor
      · intro h
        exact absurd h (by simp)
      · intro hall
        rw [anyAlreadyExists_eq_any, List.any_eq_true] at ha
        obtain ⟨e, he, hc⟩ := ha
        rw [hall e he] at hc
        exact absurd hc (by simp)
    · have ha' : anyAlreadyExists errors = false := by
        revert ha
        cases anyAlreadyExists errors <;> simp
      have hv : insert_single_transaction ⟨some (i :: ids), some errors⟩ =
          some i := by
        simp [insert_single_transaction, ha']
      rw [hv]
      rw [anyAlreadyExists_eq_any, List.any_eq_false] at ha'
      constructor
      · intro _ e he
        simpa using ha' e he
      · intro _
        rfl
  · intro results tx h
    simp [insert_transactions, insertLoop, h]

/-- Witness for C10: a response carrying both id 42 and a duplicate
message yields no id; with only an unrelated error message it yields 42;
and a duplicate outcome in a singleton batch counts as one duplicate. -/
theorem insert_duplicate_precedence_witness :
    insert_single_transaction
      ⟨some [42], some ["transaction already exists"]⟩ = none ∧
    insert_single_transaction ⟨some [42], some ["over budget"]⟩ = some 42 ∧
    insert_transactions resultsAllDup [txA] = Except.ok ([], 1) := by
  refine ⟨?_, ?_, ?_⟩
  · exact insert_duplicate_precedence.1 [42] _
      ⟨"transaction already exists", by simp, by decide⟩
  · exact (insert_duplicate_precedence.2.1 42 [] _).mpr (by decide)
  · exact insert_duplicate_precedence.2.2 resultsAllDup txA rfl

end FintocSync
